import Mathlib

/-!
Verification of the upload-session orchestrator of the uploader backend.

The development shallowly embeds the relevant JavaScript source:
* `src/config/aws.js` — the part sizing calculator `calculateMultipartParams`,
  the key generator `generateFileKey`, and the part projection performed by
  `completeMultipartUpload`;
* the Express route handlers (`/confirm`, `/:uploadId` GET and DELETE, the
  list route, `/multipart/initiate`, `/multipart/complete`,
  `/multipart/abort`) together with the `validateFileUpload` middleware.

Stateful handlers are modelled as pure functions from a registry (the
in-memory `uploads` map) and a request to an `Outcome` holding the new
registry, the trace of storage-provider calls issued, and the HTTP response
class.  Machine numbers are modelled as `Nat` (file sizes, part counts and
timestamps are non-negative integers well below 2^53 in every statement
proved here, so JavaScript number semantics coincide with `Nat`
arithmetic).
-/

namespace Uploader

/-! ### Part sizing calculator (`calculateMultipartParams`, aws.js 250-282) -/

def MIN_PART_SIZE : Nat := 5 * 1024 * 1024

def PREFERRED_PART_SIZE : Nat := 50 * 1024 * 1024

def MAX_PART_SIZE : Nat := 5 * 1024 * 1024 * 1024

def MAX_PARTS : Nat := 10000

/-- Ceiling division on naturals, modelling `Math.ceil(a / b)` for
non-negative integers. -/
def ceilDiv (a b : Nat) : Nat := (a + b - 1) / b

structure MultipartParams where
  partSize : Nat
  partCount : Nat
  useMultipart : Bool
deriving DecidableEq, Repr

/-- Model of `calculateMultipartParams` from aws.js: the sequential reassignments of
`partSize`/`partCount` are modelled by the numbered `let` bindings, one pair
per `if` statement of the source. -/
def calculateMultipartParams (fileSize : Nat) : MultipartParams :=
  let ps1 := PREFERRED_PART_SIZE
  let pc1 := ceilDiv fileSize ps1
  -- If we exceed max parts, increase part size
  let ps2 := if MAX_PARTS < pc1 then ceilDiv fileSize MAX_PARTS else ps1
  let pc2 := if MAX_PARTS < pc1 then MAX_PARTS else pc1
  -- Cap part size at maximum
  let ps3 := if MAX_PART_SIZE < ps2 then MAX_PART_SIZE else ps2
  let pc3 := if MAX_PART_SIZE < ps2 then ceilDiv fileSize MAX_PART_SIZE else pc2
  -- Ensure minimum part size
  let ps4 := if ps3 < MIN_PART_SIZE then MIN_PART_SIZE else ps3
  let pc4 := if ps3 < MIN_PART_SIZE then ceilDiv fileSize MIN_PART_SIZE else pc3
  { partSize := ps4, partCount := pc4,
    useMultipart := decide (MIN_PART_SIZE < fileSize) && decide (1 < pc4) }

/-! ### The five-step reference algorithm of the spec (§4.1)

These definitions follow the spec's words, for the refinement claim C3; they
are deliberately written over a `(partSize, partCount)` state transformed by
one function per numbered step of the spec. -/

def Pmin : Nat := 5 * 1024 * 1024

def Ppref : Nat := 50 * 1024 * 1024

def Pmax : Nat := 5 * 1024 * 1024 * 1024

def Nmax : Nat := 10000

/-- Spec step 1: start with the preferred part size. -/
def planStep1 (fileSize : Nat) : Nat × Nat := (Ppref, ceilDiv fileSize Ppref)

/-- Spec step 2: if `partCount > Nmax`, recompute the size from `Nmax`. -/
def planStep2 (fileSize : Nat) (p : Nat × Nat) : Nat × Nat :=
  if Nmax < p.2 then (ceilDiv fileSize Nmax, Nmax) else p

/-- Spec step 3: if `partSize > Pmax`, clamp and recompute the count. -/
def planStep3 (fileSize : Nat) (p : Nat × Nat) : Nat × Nat :=
  if Pmax < p.1 then (Pmax, ceilDiv fileSize Pmax) else p

/-- Spec step 4: if `partSize < Pmin`, clamp and recompute the count. -/
def planStep4 (fileSize : Nat) (p : Nat × Nat) : Nat × Nat :=
  if p.1 < Pmin then (Pmin, ceilDiv fileSize Pmin) else p

/-- The spec's five-step reference plan (§4.1), steps applied in the stated
order, step 5 being the `useMultipart` rule. -/
def planSpec (fileSize : Nat) : MultipartParams :=
  let p := planStep4 fileSize (planStep3 fileSize (planStep2 fileSize (planStep1 fileSize)))
  { partSize := p.1, partCount := p.2,
    useMultipart := decide (Pmin < fileSize) && decide (1 < p.2) }

/-! ### Key generator (`generateFileKey`, aws.js 119-126)

`originalName.split(".")` is modelled character-wise by `splitOnDot`, which
agrees with JavaScript `String.prototype.split` with separator `"."`:
splitting yields one (possibly empty) group per gap between dots, and a
name with no dot yields the one-element list holding the whole name. -/

def splitOnDot : List Char → List (List Char)
  | [] => [[]]
  | c :: rest =>
    if c = '.' then [] :: splitOnDot rest
    else
      match splitOnDot rest with
      | [] => [[c]]
      | g :: gs => (c :: g) :: gs

/-- Model of `originalName.split(".").pop()`: the final group. -/
def extensionOf (originalName : String) : String :=
  String.mk ((splitOnDot originalName.toList).getLastD [])

/-- Model of `originalName.split(".").slice(0, -1).join(".")`: all but the final
group, re-joined with dots. -/
def baseNameOf (originalName : String) : String :=
  String.mk (List.intercalate ['.'] (splitOnDot originalName.toList).dropLast)

/-- Model of `generateFileKey` from aws.js.  `Date.now()` and the random suffix are
explicit arguments (`timestamp`, `randomString`), as is the
`S3_UPLOAD_PATH` environment value (`uploadPath`); the `userId` parameter
defaults to `"anonymous"` exactly as in the source. -/
def generateFileKey (uploadPath : String) (timestamp : Nat) (randomString : String)
    (originalName : String) (userId : String := "anonymous") : String :=
  uploadPath ++ userId ++ "/" ++ toString timestamp ++ "-" ++ randomString ++ "-" ++
    baseNameOf originalName ++ "." ++ extensionOf originalName

/-! ### Session data model (routes file, in-memory `uploads` map) -/

/-- The values the `status` field of an upload record ever takes in the
routes file: `"pending"`, `"completed"`, `"multipart-initiated"`,
`"aborted"`. -/
inductive Status
  | pending
  | completed
  | multipartInitiated
  | aborted
deriving DecidableEq, Repr

/-- The `type` field: absent for simple uploads, `"multipart"` for
multipart ones. -/
inductive UploadKind
  | simple
  | multipart
deriving DecidableEq, Repr

/-- One entry of a caller-submitted `parts` array: `{ETag, PartNumber}`. -/
structure PartItem where
  ETag : String
  PartNumber : Nat
deriving DecidableEq, Repr

/-- One record of the `uploads` map.  Fields that the source only sets on
some paths (`s3UploadId`, `fileSize`, `partSize`, `partCount`,
`s3Location`, `completedAt`, `abortedAt`) are `Option`s, `none` meaning the
JavaScript field is absent. -/
structure UploadData where
  uploadId : String
  fileName : String
  contentType : String
  s3Key : String
  userId : String
  status : Status
  uploadType : UploadKind
  s3UploadId : Option String
  fileSize : Option Nat
  partSize : Option Nat
  partCount : Option Nat
  completedParts : List PartItem
  s3Location : Option String
  createdAt : Nat
  expiresAt : Nat
  completedAt : Option Nat
  abortedAt : Option Nat
deriving DecidableEq, Repr

/-- The in-memory `uploads` registry (`new Map()`), as an association list
with unique keys (a JavaScript `Map` keeps one value per key). -/
abbrev Registry := List (String × UploadData)

/-- Model of `uploads.get(k)`. -/
def regGet : Registry → String → Option UploadData
  | [], _ => none
  | (k', v) :: rest, k => if k' = k then some v else regGet rest k

/-- Model of `uploads.set(k, v)`: replace the value at an existing key, else append
a new entry. -/
def regSet : Registry → String → UploadData → Registry
  | [], k, v => [(k, v)]
  | (k', v') :: rest, k, v =>
    if k' = k then (k', v) :: rest else (k', v') :: regSet rest k v

/-- Model of `uploads.delete(k)`: remove the entry at `k`. -/
def regDel (r : Registry) (k : String) : Registry :=
  r.filter (fun p => !(p.1 = k : Bool))

/-! ### Storage provider calls and handler outcomes -/

/-- One call issued to the object-storage provider (aws.js helpers). -/
inductive ProviderCall
  | signUpload (key contentType : String) (expiresIn : Nat)
  | signDownload (key : String) (expiresIn : Nat)
  | deleteObject (key : String)
  | beginMultipart (key contentType : String)
  | signPart (key s3UploadId : String) (partNumber expiresIn : Nat)
  | completeMultipart (key s3UploadId : String) (parts : List PartItem)
  | abortMultipart (key s3UploadId : String)
deriving DecidableEq, Repr

/-- The `parts.map((part) => ({ETag: part.ETag, PartNumber: part.PartNumber}))`
projection performed inside `completeMultipartUpload` (aws.js 201-221)
before the list is forwarded to the provider. -/
def completeMultipartUploadParts (parts : List PartItem) : List PartItem :=
  parts.map (fun part => { ETag := part.ETag, PartNumber := part.PartNumber })

/-- The response class of a handler: success, or an error envelope with its
HTTP status and message. -/
inductive Response
  | ok
  | err (status : Nat) (message : String)
deriving DecidableEq, Repr

/-- HTTP status of a response (success renders as 200). -/
def Response.statusOf : Response → Nat
  | .ok => 200
  | .err s _ => s

/-- Result of running one handler: the registry afterwards, the trace of
provider calls issued (in order), and the response. -/
structure Outcome where
  registry : Registry
  calls : List ProviderCall
  response : Response
deriving DecidableEq, Repr

/-- Ambient request-independent data: the clock, the environment
configuration, and the values returned by successful provider calls. -/
structure Env where
  now : Nat
  randomString : String
  uploadPath : String
  expiresInEnv : Nat
  maxFileSize : Nat
  allowedTypes : List String
  freshUploadId : String
  s3UploadIdOf : String → String → String
  locationOf : String → String

/-- JavaScript falsiness of an optional string field (`!x`): absent or
empty. -/
def falsyStr : Option String → Bool
  | none => true
  | some s => s = ""

/-- JavaScript falsiness of an optional number field (`!x`): absent or
zero. -/
def falsyNat : Option Nat → Bool
  | none => true
  | some n => n = 0

/-! ### Route handlers (routes file) -/

/-- Handler of `POST /api/upload/confirm` (routes 92-142).  Rejects a falsy
`uploadId` (400) and an unknown id (404); otherwise sets
`status = "completed"`, stamps `completedAt`, writes the record back, and
mints a download URL. -/
def confirmHandler (env : Env) (reg : Registry) (uploadId? : Option String) : Outcome :=
  if falsyStr uploadId? then
    ⟨reg, [], .err 400 "uploadId is required"⟩
  else
    let uploadId := uploadId?.getD ""
    match regGet reg uploadId with
    | none => ⟨reg, [], .err 404 "Upload not found"⟩
    | some uploadData =>
      let uploadData' := { uploadData with status := .completed, completedAt := some env.now }
      ⟨regSet reg uploadId uploadData',
       [.signDownload uploadData.s3Key 3600], .ok⟩

/-- Handler of `GET /api/upload/:uploadId` (routes 148-166): read-only status query. -/
def getHandler (reg : Registry) (uploadId : String) : Outcome :=
  match regGet reg uploadId with
  | none => ⟨reg, [], .err 404 "Upload not found"⟩
  | some _ => ⟨reg, [], .ok⟩

/-- Handler of `DELETE /api/upload/:uploadId` (routes 172-205): 404 on an unknown id;
otherwise delete the object from storage when (and only when) the record's
status is `"completed"`, then remove the record. -/
def deleteHandler (reg : Registry) (uploadId : String) : Outcome :=
  match regGet reg uploadId with
  | none => ⟨reg, [], .err 404 "Upload not found"⟩
  | some uploadData =>
    let calls := if uploadData.status = .completed
      then [ProviderCall.deleteObject uploadData.s3Key] else []
    ⟨regDel reg uploadId, calls, .ok⟩

/-- The string rendering of a status, as stored in the `status` field. -/
def statusString : Status → String
  | .pending => "pending"
  | .completed => "completed"
  | .multipartInitiated => "multipart-initiated"
  | .aborted => "aborted"

/-- The filtered view computed by `GET /api/upload` (routes 211-235). -/
def listFiltered (reg : Registry) (userId? status? : Option String) : List UploadData :=
  let l1 := reg.map Prod.snd
  let l2 := match userId? with
    | none => l1
    | some u => l1.filter (fun ud => ud.userId = u)
  match status? with
  | none => l2
  | some s => l2.filter (fun ud => statusString ud.status = s)

/-- Handler of `GET /api/upload` (routes 211-235): read-only listing; issues no
provider call and leaves the registry untouched. -/
def listHandler (reg : Registry) (userId? status? : Option String) : Outcome :=
  let _ := listFiltered reg userId? status?
  ⟨reg, [], .ok⟩

/-- Model of `isValidFileType` (aws.js 108-111): membership of the content type in
the configured allow-list. -/
def isValidFileType (env : Env) (contentType : String) : Bool :=
  env.allowedTypes.contains contentType

/-- Request body of the initiation routes. -/
structure InitiateReq where
  fileName : Option String
  contentType : Option String
  fileSize : Option Nat
  userId : Option String

/-- Model of `contentType.startsWith("video/")`, character-wise. -/
def strStartsWith (s pre : String) : Bool :=
  pre.toList.isPrefixOf s.toList

/-- Model of the `validateFileUpload` middleware (middleware/index.js 130-182): returns
the rejection response, or `none` when the request passes to the
handler. -/
def validateFileUpload (env : Env) (r : InitiateReq) : Option Response :=
  if falsyStr r.fileName then some (.err 400 "fileName is required")
  else if falsyStr r.contentType then some (.err 400 "contentType is required")
  else if !falsyNat r.fileSize
          && !(strStartsWith (r.contentType.getD "") "video/")
          && decide (env.maxFileSize < r.fileSize.getD 0) then
    some (.err 413 "File too large")
  else if !isValidFileType env (r.contentType.getD "") then
    some (.err 400 "Invalid file type")
  else none

/-- Handler of `POST /api/upload/multipart/initiate` (routes 275-358), composed with
the `validateFileUpload` middleware.  A falsy `fileSize` is rejected (400);
a size the calculator does not mark for multipart is rejected (400);
otherwise a multipart handle is opened, one part URL is signed per part
`1..partCount`, and the new record is registered. -/
def initiateMultipartHandler (env : Env) (reg : Registry) (r : InitiateReq) : Outcome :=
  match validateFileUpload env r with
  | some e => ⟨reg, [], e⟩
  | none =>
    if falsyNat r.fileSize then
      ⟨reg, [], .err 400 "fileSize is required for multipart upload"⟩
    else
      let fileSize := r.fileSize.getD 0
      let uploadId := env.freshUploadId
      let keyUserId := match r.userId with
        | none => "anonymous"
        | some u => u
      let s3Key := generateFileKey env.uploadPath env.now env.randomString
        (r.fileName.getD "") keyUserId
      let multipartParams := calculateMultipartParams fileSize
      if multipartParams.useMultipart = false then
        ⟨reg, [],
         .err 400 "File size does not require multipart upload. Use regular upload instead."⟩
      else
        let contentType := r.contentType.getD ""
        let s3UploadId := env.s3UploadIdOf s3Key contentType
        let partCalls := (List.range multipartParams.partCount).map
          (fun i => ProviderCall.signPart s3Key s3UploadId (i + 1) env.expiresInEnv)
        let uploadData : UploadData :=
          { uploadId := uploadId
            fileName := r.fileName.getD ""
            contentType := contentType
            s3Key := s3Key
            userId := if falsyStr r.userId then "anonymous" else keyUserId
            status := .multipartInitiated
            uploadType := .multipart
            s3UploadId := some s3UploadId
            fileSize := some fileSize
            partSize := some multipartParams.partSize
            partCount := some multipartParams.partCount
            completedParts := []
            s3Location := none
            createdAt := env.now
            expiresAt := env.now + env.expiresInEnv * 1000
            completedAt := none
            abortedAt := none }
        ⟨regSet reg uploadId uploadData,
         ProviderCall.beginMultipart s3Key contentType :: partCalls, .ok⟩

/-- Handler of `POST /api/upload/multipart/complete` (routes 364-445).  Guards in
source order: falsy `uploadId` or missing/non-array `parts` (400), unknown
id (404), non-multipart record (400), part-count mismatch (400); then the
caller's list—projected to `{ETag, PartNumber}` field pairs, in caller
order—is forwarded to the provider, and the record is completed. -/
def completeMultipartHandler (env : Env) (reg : Registry)
    (uploadId? : Option String) (parts? : Option (List PartItem)) : Outcome :=
  if falsyStr uploadId? || parts?.isNone then
    ⟨reg, [], .err 400 "uploadId and parts array are required"⟩
  else
    let uploadId := uploadId?.getD ""
    let parts := parts?.getD []
    match regGet reg uploadId with
    | none => ⟨reg, [], .err 404 "Upload not found"⟩
    | some uploadData =>
      if uploadData.uploadType ≠ .multipart then
        ⟨reg, [], .err 400 "Upload is not a multipart upload"⟩
      else if uploadData.partCount ≠ some parts.length then
        ⟨reg, [],
         .err 400 ("Expected " ++ toString (uploadData.partCount.getD 0) ++
           " parts, received " ++ toString parts.length)⟩
      else
        let location := env.locationOf uploadData.s3Key
        let uploadData' := { uploadData with
          status := .completed
          completedAt := some env.now
          completedParts := parts
          s3Location := some location }
        ⟨regSet reg uploadId uploadData',
         [.completeMultipart uploadData.s3Key (uploadData.s3UploadId.getD "")
            (completeMultipartUploadParts parts),
          .signDownload uploadData.s3Key 3600], .ok⟩

/-- Handler of `POST /api/upload/multipart/abort` (routes 451-506).  Guards in source
order: falsy `uploadId` (400), unknown id (404), non-multipart record
(400); then the provider handle is released and the record marked
aborted. -/
def abortMultipartHandler (env : Env) (reg : Registry) (uploadId? : Option String) : Outcome :=
  if falsyStr uploadId? then
    ⟨reg, [], .err 400 "uploadId is required"⟩
  else
    let uploadId := uploadId?.getD ""
    match regGet reg uploadId with
    | none => ⟨reg, [], .err 404 "Upload not found"⟩
    | some uploadData =>
      if uploadData.uploadType ≠ .multipart then
        ⟨reg, [], .err 400 "Upload is not a multipart upload"⟩
      else
        let uploadData' := { uploadData with status := .aborted, abortedAt := some env.now }
        ⟨regSet reg uploadId uploadData',
         [.abortMultipart uploadData.s3Key (uploadData.s3UploadId.getD "")], .ok⟩

/-- The orchestrator operations claim C4 ranges over. -/
inductive Op
  | confirm (uploadId : Option String)
  | completeMP (uploadId : Option String) (parts : Option (List PartItem))
  | abortMP (uploadId : Option String)
  | del (uploadId : String)
  | get (uploadId : String)
  | list (userId status : Option String)

/-- Dispatch one operation to its handler. -/
def step (env : Env) (reg : Registry) : Op → Outcome
  | .confirm u => confirmHandler env reg u
  | .completeMP u p => completeMultipartHandler env reg u p
  | .abortMP u => abortMultipartHandler env reg u
  | .del u => deleteHandler reg u
  | .get u => getHandler reg u
  | .list u s => listHandler reg u s

/-- A part list is sorted by part number when consecutive part numbers are
non-decreasing. -/
def sortedByPartNumberB : List PartItem → Bool
  | [] => true
  | [_] => true
  | a :: b :: rest => decide (a.PartNumber ≤ b.PartNumber) && sortedByPartNumberB (b :: rest)

/-! ### Registry lemmas -/

theorem regGet_set_self (r : Registry) (k : String) (v : UploadData) :
    regGet (regSet r k v) k = some v := by
  induction r with
  | nil => simp [regSet, regGet]
  | cons p rest ih =>
    by_cases h : p.1 = k
    · simp [regSet, regGet, h]
    · simp [regSet, regGet, h, ih]

theorem regGet_set_ne (r : Registry) (k k' : String) (v : UploadData) (h : k' ≠ k) :
    regGet (regSet r k v) k' = regGet r k' := by
  have h' : ¬ (k = k') := fun hh => h hh.symm
  induction r with
  | nil => simp [regSet, regGet, h']
  | cons p rest ih =>
    by_cases hp : p.1 = k
    · simp [regSet, regGet, hp, h']
    · by_cases hp' : p.1 = k'
      · simp [regSet, regGet, hp, hp', h]
      · simp [regSet, regGet, hp, hp', ih]

theorem regGet_del_self (r : Registry) (k : String) :
    regGet (regDel r k) k = none := by
  induction r with
  | nil => simp [regDel, regGet]
  | cons p rest ih =>
    by_cases h : p.1 = k
    · simpa [regDel, regGet, h] using ih
    · simpa [regDel, regGet, h] using ih

/-! ### Dot-splitting lemmas for the key generator -/

theorem splitOnDot_ne_nil (l : List Char) : splitOnDot l ≠ [] := by
  cases l with
  | nil => simp [splitOnDot]
  | cons c rest =>
    by_cases h : c = '.'
    · simp [splitOnDot, h]
    · simp only [splitOnDot, h, if_false]
      cases splitOnDot rest <;> simp

theorem splitOnDot_no_dot (l : List Char) (h : '.' ∉ l) : splitOnDot l = [l] := by
  induction l with
  | nil => simp [splitOnDot]
  | cons c rest ih =>
    simp only [List.mem_cons, not_or] at h
    have hc : ¬ (c = '.') := fun hh => h.1 hh.symm
    simp [splitOnDot, hc, ih h.2]

theorem intercalate_splitOnDot (l : List Char) :
    List.intercalate ['.'] (splitOnDot l) = l := by
  induction l with
  | nil => simp [splitOnDot, List.intercalate]
  | cons c rest ih =>
    by_cases h : c = '.'
    · subst h
      rw [show splitOnDot ('.' :: rest) = [] :: splitOnDot rest from by
        simp [splitOnDot]]
      cases hs : splitOnDot rest with
      | nil => exact absurd hs (splitOnDot_ne_nil rest)
      | cons g gs =>
        rw [hs] at ih
        have hstep : List.intercalate ['.'] ([] :: g :: gs) =
            '.' :: List.intercalate ['.'] (g :: gs) := by
          simp [List.intercalate]
        rw [hstep, ih]
    · simp only [splitOnDot, h, if_false]
      cases hs : splitOnDot rest with
      | nil => exact absurd hs (splitOnDot_ne_nil rest)
      | cons g gs =>
        rw [hs] at ih
        have hstep : List.intercalate ['.'] ((c :: g) :: gs) =
            c :: List.intercalate ['.'] (g :: gs) := by
          cases gs <;> simp [List.intercalate]
        rw [hstep, ih]

theorem splitOnDot_length_ge_two (l : List Char) (h : '.' ∈ l) :
    2 ≤ (splitOnDot l).length := by
  induction l with
  | nil => simp at h
  | cons c rest ih =>
    by_cases hc : c = '.'
    · have := splitOnDot_ne_nil rest
      simp only [splitOnDot, hc, if_pos rfl, List.length_cons]
      cases hs : splitOnDot rest with
      | nil => exact absurd hs this
      | cons g gs => simp
    · have hr : '.' ∈ rest := by
        rcases List.mem_cons.mp h with h1 | h2
        · exact absurd h1.symm hc
        · exact h2
      simp only [splitOnDot, hc, if_false]
      cases hs : splitOnDot rest with
      | nil => exact absurd hs (splitOnDot_ne_nil rest)
      | cons g gs =>
        have := ih hr
        rw [hs] at this
        simpa using this

theorem splitOnDot_last_no_dot (l : List Char) :
    '.' ∉ (splitOnDot l).getLastD [] := by
  induction l with
  | nil => simp [splitOnDot]
  | cons c rest ih =>
    by_cases hc : c = '.'
    · simp only [splitOnDot, hc, if_pos rfl]
      cases hs : splitOnDot rest with
      | nil => exact absurd hs (splitOnDot_ne_nil rest)
      | cons g gs =>
        rw [hs] at ih
        simpa [List.getLastD_cons] using ih
    · simp only [splitOnDot, hc, if_false]
      cases hs : splitOnDot rest with
      | nil =>
        simp only [List.getLastD]
        intro hmem
        rcases List.mem_cons.mp hmem with h1 | h2
        · exact hc h1.symm
        · simp at h2
      | cons g gs =>
        rw [hs] at ih
        cases gs with
        | nil =>
          simp only [List.getLastD] at ih ⊢
          intro hmem
          rcases List.mem_cons.mp hmem with h1 | h2
          · exact hc h1.symm
          · exact ih h2
        | cons g2 gs2 =>
          simpa [List.getLastD_cons] using ih

theorem intercalate_cons_ne_nil (a : List Char) (xs : List (List Char)) (h : xs ≠ []) :
    List.intercalate ['.'] (a :: xs) = a ++ '.' :: List.intercalate ['.'] xs := by
  cases xs with
  | nil => exact absurd rfl h
  | cons b rest => cases rest <;> simp [List.intercalate]

theorem intercalate_dropLast_getLastD (gs : List (List Char)) (h : 2 ≤ gs.length) :
    List.intercalate ['.'] gs.dropLast ++ '.' :: gs.getLastD [] =
      List.intercalate ['.'] gs := by
  induction gs with
  | nil => simp at h
  | cons a xs ih =>
    cases xs with
    | nil => simp at h
    | cons b rest =>
      cases rest with
      | nil => simp [List.intercalate]
      | cons c cs =>
        have h2 : 2 ≤ (b :: c :: cs).length := by simp
        have hstep := ih h2
        rw [List.dropLast_cons_of_ne_nil (by simp : (b :: c :: cs) ≠ [])]
        rw [intercalate_cons_ne_nil a (b :: c :: cs) (by simp)]
        rw [intercalate_cons_ne_nil a ((b :: c :: cs).dropLast) (by simp)]
        rw [List.getLastD_cons]
        rw [List.append_assoc]
        congr 1
        simpa using hstep

/-- The `{ETag, PartNumber}` projection is the identity on already-projected
part items. -/
theorem completeMultipartUploadParts_eq (parts : List PartItem) :
    completeMultipartUploadParts parts = parts := by
  induction parts with
  | nil => rfl
  | cons p ps ih =>
    cases p
    simp only [completeMultipartUploadParts, List.map_cons] at ih ⊢
    simp_all [completeMultipartUploadParts]

/-! ### Concrete fixtures used by counterexamples and witnesses -/

/-- A concrete environment: fixed clock, configuration and provider
results. -/
def sampleEnv : Env :=
  { now := 5
    randomString := "r4nd0m"
    uploadPath := "uploads/"
    expiresInEnv := 3600
    maxFileSize := 32212254720
    allowedTypes := ["video/mp4"]
    freshUploadId := "fresh-id"
    s3UploadIdOf := fun _ _ => "s3mpu-1"
    locationOf := fun _ => "https://bucket.example/key" }

/-- A multipart session in state `MultipartInitiated` with two parts
outstanding (100 MiB at the 50 MiB preferred part size). -/
def sampleMPInit : UploadData :=
  { uploadId := "mp1"
    fileName := "movie.mp4"
    contentType := "video/mp4"
    s3Key := "uploads/anonymous/5-r4nd0m-movie.mp4"
    userId := "anonymous"
    status := .multipartInitiated
    uploadType := .multipart
    s3UploadId := some "s3mpu-1"
    fileSize := some 104857600
    partSize := some 52428800
    partCount := some 2
    completedParts := []
    s3Location := none
    createdAt := 5
    expiresAt := 3600005
    completedAt := none
    abortedAt := none }

/-- The same multipart session after an abort. -/
def sampleAbortedMP : UploadData :=
  { sampleMPInit with status := .aborted, abortedAt := some 6 }

/-- A simple (non-multipart) session still pending. -/
def samplePending : UploadData :=
  { uploadId := "s1"
    fileName := "clip.mp4"
    contentType := "video/mp4"
    s3Key := "uploads/anonymous/5-r4nd0m-clip.mp4"
    userId := "anonymous"
    status := .pending
    uploadType := .simple
    s3UploadId := none
    fileSize := none
    partSize := none
    partCount := none
    completedParts := []
    s3Location := none
    createdAt := 5
    expiresAt := 3600005
    completedAt := none
    abortedAt := none }

/-- A simple session already completed. -/
def sampleCompleted : UploadData :=
  { samplePending with status := .completed, completedAt := some 7 }

/-! ### Claim C2 — part sizing bounds (corrected) -/

/-- Claim C2, counterexample: at `fileSize = Nmax * Pmax + 1` (one byte over
10000 maximal parts) the plan's part count is 10001, violating the claimed
`partCount <= 10000`. -/
theorem calcMultipart_partCount_limit_cex :
    (calculateMultipartParams 53687091200001).partCount = 10001 ∧
    ¬ ((calculateMultipartParams 53687091200001).partCount ≤ 10000) := by
  constructor
  · decide
  · decide

/-- Claim C2 as amended: for every `fileSize`, the plan covers the file
(`partCount * partSize >= fileSize`) and keeps the part size between `Pmin`
and `Pmax`; the part-count cap `partCount <= 10000` additionally holds
whenever `fileSize <= Nmax * Pmax` (50 TiB), and fails above it. -/
theorem calcMultipart_bounds_amended (fileSize : Nat) :
    fileSize ≤ (calculateMultipartParams fileSize).partCount *
      (calculateMultipartParams fileSize).partSize ∧
    MIN_PART_SIZE ≤ (calculateMultipartParams fileSize).partSize ∧
    (calculateMultipartParams fileSize).partSize ≤ MAX_PART_SIZE ∧
    (fileSize ≤ MAX_PARTS * MAX_PART_SIZE →
      (calculateMultipartParams fileSize).partCount ≤ MAX_PARTS) := by
  simp only [calculateMultipartParams, ceilDiv, MIN_PART_SIZE, PREFERRED_PART_SIZE,
    MAX_PART_SIZE, MAX_PARTS]
  split_ifs <;> omega

/-- Witness for C2's amended theorem at the 120 MiB example size. -/
theorem calcMultipart_bounds_amended_witness :
    125829120 ≤ (calculateMultipartParams 125829120).partCount *
      (calculateMultipartParams 125829120).partSize ∧
    (calculateMultipartParams 125829120).partCount ≤ MAX_PARTS :=
  ⟨(calcMultipart_bounds_amended 125829120).1,
   (calcMultipart_bounds_amended 125829120).2.2.2 (by decide)⟩

/-! ### Claim C3 — the plan equals the spec's five-step algorithm
(confirmed) -/

/-- Claim C3: the code's `calculateMultipartParams` coincides with the
spec's five-step reference algorithm (steps applied in the stated order);
in particular the 120 MiB example yields `{partSize = 50 MiB,
partCount = 3, useMultipart := true}`, and any size at or below `Pmin`
yields `useMultipart = false`. -/
theorem calcMultipart_matches_planSpec :
    (∀ fileSize : Nat, calculateMultipartParams fileSize = planSpec fileSize) ∧
    calculateMultipartParams (120 * 1024 * 1024) =
      { partSize := 50 * 1024 * 1024, partCount := 3, useMultipart := true } ∧
    (∀ fileSize : Nat, fileSize ≤ Pmin →
      (calculateMultipartParams fileSize).useMultipart = false) := by
  refine ⟨?_, by decide, ?_⟩
  · intro f
    simp only [calculateMultipartParams, planSpec, planStep4, planStep3, planStep2, planStep1,
      Pmin, Ppref, Pmax, Nmax, MIN_PART_SIZE, PREFERRED_PART_SIZE, MAX_PART_SIZE, MAX_PARTS]
    split_ifs <;> simp_all
  · intro f hf
    simp only [Pmin] at hf
    have hd : decide (MIN_PART_SIZE < f) = false := by
      simp only [MIN_PART_SIZE]
      simp
      omega
    simp only [calculateMultipartParams, hd, Bool.false_and]

/-- Witness for C3: the equality at 0 and the `useMultipart = false`
consequence at exactly `Pmin`. -/
theorem calcMultipart_matches_planSpec_witness :
    calculateMultipartParams 0 = planSpec 0 ∧
    (calculateMultipartParams 5242880).useMultipart = false :=
  ⟨calcMultipart_matches_planSpec.1 0,
   calcMultipart_matches_planSpec.2.2 5242880 (by decide)⟩

/-! ### Claim C8 — key generation and the extension split (corrected) -/

/-- Claim C8, counterexample: for the dot-less file name `"file"` the code
takes the whole name as the extension and leaves the base empty — the key
ends in `-.file` — rather than treating the name as having an empty
extension. -/
theorem generateFileKey_no_dot_cex :
    extensionOf "file" = "file" ∧
    ¬ (extensionOf "file" = "") ∧
    baseNameOf "file" = "" ∧
    generateFileKey "uploads/" 17 "abc123" "file" "user1" =
      "uploads/user1/17-abc123-.file" := by
  refine ⟨rfl, by decide, rfl, rfl⟩

/-- Claim C8 as amended: the key combines the upload-path value, the owner
identifier (`"anonymous"` by default via the declared default argument),
the time and random components, and the base/extension pair; for a name
containing a `'.'` they are the split on the last dot, while a name with no
`'.'` yields an empty base and the whole name as the extension (so the key
ends in `-.name`, never `base.`). -/
theorem generateFileKey_amended (uploadPath rand name uid : String) (ts : Nat) :
    generateFileKey uploadPath ts rand name uid =
      uploadPath ++ uid ++ "/" ++ toString ts ++ "-" ++ rand ++ "-" ++
        baseNameOf name ++ "." ++ extensionOf name ∧
    generateFileKey uploadPath ts rand name =
      uploadPath ++ "anonymous" ++ "/" ++ toString ts ++ "-" ++ rand ++ "-" ++
        baseNameOf name ++ "." ++ extensionOf name ∧
    ('.' ∉ name.toList → baseNameOf name = "" ∧ extensionOf name = name) ∧
    ('.' ∈ name.toList →
      baseNameOf name ++ "." ++ extensionOf name = name ∧
      '.' ∉ (extensionOf name).toList) := by
  refine ⟨rfl, rfl, ?_, ?_⟩
  · intro h
    have hs := splitOnDot_no_dot name.toList h
    constructor
    · show String.mk (List.intercalate ['.'] (splitOnDot name.toList).dropLast) = ""
      rw [hs]
      rfl
    · show String.mk ((splitOnDot name.toList).getLastD []) = name
      rw [hs]
      simp [List.getLastD]
  · intro h
    have hlen := splitOnDot_length_ge_two name.toList h
    constructor
    · have e1 : baseNameOf name ++ "." ++ extensionOf name =
          String.mk ((List.intercalate ['.'] (splitOnDot name.toList).dropLast ++ ['.']) ++
            (splitOnDot name.toList).getLastD []) := rfl
      rw [e1, List.append_assoc, List.singleton_append,
        intercalate_dropLast_getLastD _ hlen, intercalate_splitOnDot]
      rfl
    · simpa [extensionOf] using splitOnDot_last_no_dot name.toList

/-- Witness for C8's amended theorem on a dotted and a dot-less name. -/
theorem generateFileKey_amended_witness :
    generateFileKey "uploads/" 17 "abc123" "archive.tar.gz" "user1" =
      "uploads/" ++ "user1" ++ "/" ++ toString 17 ++ "-" ++ "abc123" ++ "-" ++
        baseNameOf "archive.tar.gz" ++ "." ++ extensionOf "archive.tar.gz" ∧
    (baseNameOf "archive.tar.gz" ++ "." ++ extensionOf "archive.tar.gz" = "archive.tar.gz" ∧
      '.' ∉ (extensionOf "archive.tar.gz").toList) ∧
    (baseNameOf "file" = "" ∧ extensionOf "file" = "file") :=
  ⟨(generateFileKey_amended "uploads/" "abc123" "archive.tar.gz" "user1" 17).1,
   (generateFileKey_amended "uploads/" "abc123" "archive.tar.gz" "user1" 17).2.2.2 (by decide),
   (generateFileKey_amended "uploads/" "abc123" "file" "user1" 17).2.2.1 (by decide)⟩

/-! ### Claim C1 — order of the forwarded part list (corrected) -/

/-- Claim C1, counterexample: a caller-submitted part list in reverse order
is accepted (it has the right length) and forwarded to the provider's
`completeMultipart` in that same reverse order, which is not sorted by part
number. -/
theorem completeMultipart_forwards_unsorted_cex :
    (completeMultipartHandler sampleEnv [("mp1", sampleMPInit)] (some "mp1")
        (some [⟨"etag-b", 2⟩, ⟨"etag-a", 1⟩])).response = .ok ∧
    (completeMultipartHandler sampleEnv [("mp1", sampleMPInit)] (some "mp1")
        (some [⟨"etag-b", 2⟩, ⟨"etag-a", 1⟩])).calls =
      [.completeMultipart "uploads/anonymous/5-r4nd0m-movie.mp4" "s3mpu-1"
          [⟨"etag-b", 2⟩, ⟨"etag-a", 1⟩],
       .signDownload "uploads/anonymous/5-r4nd0m-movie.mp4" 3600] ∧
    sortedByPartNumberB [⟨"etag-b", 2⟩, ⟨"etag-a", 1⟩] = false := by
  refine ⟨?_, ?_, ?_⟩ <;> decide

/-- Claim C1 as amended: on every accepted completion the handler forwards
the caller's part list to the provider in the caller-submitted order (each
entry projected to its `{ETag, PartNumber}` fields, a projection that
changes nothing); the forwarded list is therefore sorted by part number
exactly when the caller's list was. -/
theorem completeMultipart_forwards_caller_order (env : Env) (reg : Registry)
    (k : String) (ud : UploadData) (parts : List PartItem)
    (hk : k ≠ "") (hreg : regGet reg k = some ud)
    (hmp : ud.uploadType = .multipart) (hlen : ud.partCount = some parts.length) :
    (completeMultipartHandler env reg (some k) (some parts)).calls =
      [.completeMultipart ud.s3Key (ud.s3UploadId.getD "")
          (completeMultipartUploadParts parts),
       .signDownload ud.s3Key 3600] ∧
    completeMultipartUploadParts parts = parts ∧
    sortedByPartNumberB (completeMultipartUploadParts parts) = sortedByPartNumberB parts := by
  have hfwd := completeMultipartUploadParts_eq parts
  refine ⟨?_, hfwd, by rw [hfwd]⟩
  simp [completeMultipartHandler, falsyStr, hk, hreg, hmp, hlen]

/-- Witness for C1's amended theorem: an in-order two-part completion. -/
theorem completeMultipart_forwards_caller_order_witness :
    (completeMultipartHandler sampleEnv [("mp1", sampleMPInit)] (some "mp1")
        (some [⟨"e1", 1⟩, ⟨"e2", 2⟩])).calls =
      [.completeMultipart sampleMPInit.s3Key (sampleMPInit.s3UploadId.getD "")
          (completeMultipartUploadParts [⟨"e1", 1⟩, ⟨"e2", 2⟩]),
       .signDownload sampleMPInit.s3Key 3600] :=
  (completeMultipart_forwards_caller_order sampleEnv [("mp1", sampleMPInit)] "mp1"
    sampleMPInit [⟨"e1", 1⟩, ⟨"e2", 2⟩] (by decide) (by decide) rfl rfl).1

/-! ### Claim C4 — terminal states are not protected (corrected) -/

/-- Claim C4, counterexample: `confirm` on a session whose state is the
terminal `Aborted` rewrites it to `Completed`, reversing a terminal
state. -/
theorem confirm_reverses_aborted_cex :
    (regGet [("mp1", sampleAbortedMP)] "mp1").map UploadData.status =
      some .aborted ∧
    (regGet (step sampleEnv [("mp1", sampleAbortedMP)]
        (.confirm (some "mp1"))).registry "mp1").map UploadData.status =
      some .completed := by
  refine ⟨?_, ?_⟩ <;> decide

/-- Claim C4 as amended: only the read operations and delete respect
terminal states — `get` and `list` leave the registry untouched and
`delete` removes the record without rewriting its state — while `confirm`
(and likewise the completion/abort writers) carries no state guard: on any
existing session, terminal or not, it overwrites the state with
`Completed`. -/
theorem terminal_state_ops_amended (env : Env) (reg : Registry) (k : String)
    (ud : UploadData) (hk : k ≠ "") (hreg : regGet reg k = some ud)
    (hterm : ud.status = .completed ∨ ud.status = .aborted) :
    (step env reg (.get k)).registry = reg ∧
    (∀ u s, (step env reg (.list u s)).registry = reg) ∧
    regGet (step env reg (.del k)).registry k = none ∧
    regGet (step env reg (.confirm (some k))).registry k =
      some { ud with status := .completed, completedAt := some env.now } := by
  refine ⟨?_, ?_, ?_, ?_⟩
  · simp [step, getHandler, hreg]
  · intro u s
    simp [step, listHandler]
  · simp [step, deleteHandler, hreg, regGet_del_self]
  · simp [step, confirmHandler, falsyStr, hk, hreg, regGet_set_self]

/-- Witness for C4's amended theorem on the aborted multipart fixture. -/
theorem terminal_state_ops_amended_witness :
    regGet (step sampleEnv [("mp1", sampleAbortedMP)] (.del "mp1")).registry "mp1" = none ∧
    regGet (step sampleEnv [("mp1", sampleAbortedMP)]
        (.confirm (some "mp1"))).registry "mp1" =
      some { sampleAbortedMP with status := .completed, completedAt := some 5 } := by
  have h := terminal_state_ops_amended sampleEnv [("mp1", sampleAbortedMP)] "mp1"
    sampleAbortedMP (by decide) (by decide) (Or.inr rfl)
  exact ⟨h.2.2.1, h.2.2.2⟩

/-! ### Claim C5 — wrong-length completion is rejected atomically
(confirmed) -/

/-- Claim C5: completing a `MultipartInitiated` session with a part list
whose length differs from the computed `partCount` is rejected with a
400-class conflict, no provider call is made, the registry is returned
unchanged, and the session stays in `MultipartInitiated`. -/
theorem completeMultipart_wrong_length_rejected (env : Env) (reg : Registry)
    (k : String) (ud : UploadData) (parts : List PartItem) (n : Nat)
    (hk : k ≠ "") (hreg : regGet reg k = some ud)
    (hmp : ud.uploadType = .multipart) (hst : ud.status = .multipartInitiated)
    (hn : ud.partCount = some n) (hlen : parts.length ≠ n) :
    (completeMultipartHandler env reg (some k) (some parts)).registry = reg ∧
    (completeMultipartHandler env reg (some k) (some parts)).calls = [] ∧
    (completeMultipartHandler env reg (some k) (some parts)).response.statusOf = 400 ∧
    (regGet (completeMultipartHandler env reg (some k) (some parts)).registry k).map
      UploadData.status = some .multipartInitiated := by
  have hmm : ud.partCount ≠ some parts.length := by
    rw [hn]
    intro hh
    exact hlen (Option.some.inj hh).symm
  refine ⟨?_, ?_, ?_, ?_⟩ <;>
    simp [completeMultipartHandler, falsyStr, hk, hreg, hmp, hmm, Response.statusOf, hst]

/-- Witness for C5: a one-element part list against the two-part fixture
session. -/
theorem completeMultipart_wrong_length_rejected_witness :
    (completeMultipartHandler sampleEnv [("mp1", sampleMPInit)] (some "mp1")
        (some [⟨"e1", 1⟩])).registry = [("mp1", sampleMPInit)] ∧
    (completeMultipartHandler sampleEnv [("mp1", sampleMPInit)] (some "mp1")
        (some [⟨"e1", 1⟩])).response.statusOf = 400 := by
  have h := completeMultipart_wrong_length_rejected sampleEnv [("mp1", sampleMPInit)]
    "mp1" sampleMPInit [⟨"e1", 1⟩] 2 (by decide) (by decide) rfl rfl rfl (by decide)
  exact ⟨h.1, h.2.2.1⟩

/-! ### Claim C6 — rejected transitions are client errors and leave the
registry unchanged (confirmed) -/

/-- Claim C6: each rejected transition — initiating multipart when the
calculator says `useMultipart = false`, completing or aborting a
non-multipart session, or addressing an unknown session id with confirm,
complete, abort, delete or get — produces a 400/404 client-error response,
issues no provider call, and leaves the registry exactly as it was. -/
theorem rejected_transitions_client_errors (env : Env) (reg : Registry) :
    (∀ r : InitiateReq, validateFileUpload env r = none →
      (calculateMultipartParams (r.fileSize.getD 0)).useMultipart = false →
        (initiateMultipartHandler env reg r).registry = reg ∧
        (initiateMultipartHandler env reg r).calls = [] ∧
        (initiateMultipartHandler env reg r).response.statusOf = 400) ∧
    (∀ (k : String) (ud : UploadData) (parts? : Option (List PartItem)),
      k ≠ "" → regGet reg k = some ud → ud.uploadType ≠ .multipart →
        (completeMultipartHandler env reg (some k) parts?).registry = reg ∧
        (completeMultipartHandler env reg (some k) parts?).calls = [] ∧
        (completeMultipartHandler env reg (some k) parts?).response.statusOf = 400) ∧
    (∀ (k : String) (ud : UploadData),
      k ≠ "" → regGet reg k = some ud → ud.uploadType ≠ .multipart →
        (abortMultipartHandler env reg (some k)).registry = reg ∧
        (abortMultipartHandler env reg (some k)).calls = [] ∧
        (abortMultipartHandler env reg (some k)).response.statusOf = 400) ∧
    (∀ k : String, k ≠ "" → regGet reg k = none →
      ((confirmHandler env reg (some k)).registry = reg ∧
        (confirmHandler env reg (some k)).calls = [] ∧
        (confirmHandler env reg (some k)).response.statusOf = 404) ∧
      (∀ parts : List PartItem,
        (completeMultipartHandler env reg (some k) (some parts)).registry = reg ∧
        (completeMultipartHandler env reg (some k) (some parts)).calls = [] ∧
        (completeMultipartHandler env reg (some k) (some parts)).response.statusOf = 404) ∧
      ((abortMultipartHandler env reg (some k)).registry = reg ∧
        (abortMultipartHandler env reg (some k)).calls = [] ∧
        (abortMultipartHandler env reg (some k)).response.statusOf = 404) ∧
      ((deleteHandler reg k).registry = reg ∧
        (deleteHandler reg k).calls = [] ∧
        (deleteHandler reg k).response.statusOf = 404) ∧
      ((getHandler reg k).registry = reg ∧
        (getHandler reg k).calls = [] ∧
        (getHandler reg k).response.statusOf = 404)) := by
  refine ⟨?_, ?_, ?_, ?_⟩
  · intro r hv hum
    by_cases hfs : falsyNat r.fileSize
    · refine ⟨?_, ?_, ?_⟩ <;>
        simp [initiateMultipartHandler, hv, hfs, Response.statusOf]
    · refine ⟨?_, ?_, ?_⟩ <;>
        simp [initiateMultipartHandler, hv, hfs, hum, Response.statusOf]
  · intro k ud parts? hk hreg hmp
    cases parts? with
    | none =>
      refine ⟨?_, ?_, ?_⟩ <;>
        simp [completeMultipartHandler, Response.statusOf]
    | some parts =>
      refine ⟨?_, ?_, ?_⟩ <;>
        simp [completeMultipartHandler, falsyStr, hk, hreg, hmp, Response.statusOf]
  · intro k ud hk hreg hmp
    refine ⟨?_, ?_, ?_⟩ <;>
      simp [abortMultipartHandler, falsyStr, hk, hreg, hmp, Response.statusOf]
  · intro k hk hreg
    refine ⟨⟨?_, ?_, ?_⟩, fun parts => ⟨?_, ?_, ?_⟩, ⟨?_, ?_, ?_⟩, ⟨?_, ?_, ?_⟩, ⟨?_, ?_, ?_⟩⟩ <;>
      simp [confirmHandler, completeMultipartHandler, abortMultipartHandler,
        deleteHandler, getHandler, falsyStr, hk, hreg, Response.statusOf]

/-- Witness for C6: one concrete instance of each rejected transition. -/
theorem rejected_transitions_client_errors_witness :
    (initiateMultipartHandler sampleEnv [("s1", samplePending)]
        ⟨some "clip.mp4", some "video/mp4", some 1000000, none⟩).response.statusOf = 400 ∧
    (completeMultipartHandler sampleEnv [("s1", samplePending)] (some "s1")
        (some [])).response.statusOf = 400 ∧
    (abortMultipartHandler sampleEnv [("s1", samplePending)]
        (some "s1")).response.statusOf = 400 ∧
    (getHandler [("s1", samplePending)] "zz").response.statusOf = 404 := by
  have h := rejected_transitions_client_errors sampleEnv [("s1", samplePending)]
  exact ⟨(h.1 ⟨some "clip.mp4", some "video/mp4", some 1000000, none⟩
            (by decide) (by decide)).2.2,
         (h.2.1 "s1" samplePending (some []) (by decide) (by decide) (by decide)).2.2,
         (h.2.2.1 "s1" samplePending (by decide) (by decide) (by decide)).2.2,
         ((h.2.2.2 "zz" (by decide) (by decide)).2.2.2.2).2.2⟩

/-! ### Claim C7 — delete on Completed and Pending sessions (confirmed) -/

/-- Claim C7: deleting a `Completed` session issues exactly one
`deleteObject` call carrying that session's storage key; deleting a
`Pending` session issues none; in both cases the record is removed and the
request succeeds. -/
theorem delete_completed_calls_pending_none (reg : Registry) (k : String)
    (ud : UploadData) (hreg : regGet reg k = some ud) :
    (ud.status = .completed →
      (deleteHandler reg k).calls = [ProviderCall.deleteObject ud.s3Key]) ∧
    (ud.status = .pending → (deleteHandler reg k).calls = []) ∧
    regGet (deleteHandler reg k).registry k = none ∧
    (deleteHandler reg k).response = .ok := by
  refine ⟨?_, ?_, ?_, ?_⟩
  · intro hc
    simp [deleteHandler, hreg, hc]
  · intro hp
    simp [deleteHandler, hreg, hp]
  · simp [deleteHandler, hreg, regGet_del_self]
  · simp [deleteHandler, hreg]

/-- Witness for C7 on the completed and pending fixtures. -/
theorem delete_completed_calls_pending_none_witness :
    (deleteHandler [("c1", sampleCompleted)] "c1").calls =
      [ProviderCall.deleteObject sampleCompleted.s3Key] ∧
    (deleteHandler [("s1", samplePending)] "s1").calls = [] ∧
    regGet (deleteHandler [("c1", sampleCompleted)] "c1").registry "c1" = none := by
  have h1 := delete_completed_calls_pending_none [("c1", sampleCompleted)] "c1"
    sampleCompleted (by decide)
  have h2 := delete_completed_calls_pending_none [("s1", samplePending)] "s1"
    samplePending (by decide)
  exact ⟨h1.1 rfl, h2.2.1 rfl, h1.2.2.1⟩

/-! ### Claim C9 — confirm succeeds on any existing session (confirmed) -/

/-- Claim C9: `confirm` succeeds on every existing session whatever its
kind or state, rewriting the status to `completed` and stamping
`completedAt`, and issues only a download-URL signing call (never the
provider's `completeMultipart`); the only rejections are a falsy/missing
`uploadId` (400) and an unknown id (404), both of which leave the registry
unchanged. -/
theorem confirm_unconditional_success (env : Env) (reg : Registry) :
    (∀ (k : String) (ud : UploadData), k ≠ "" → regGet reg k = some ud →
      confirmHandler env reg (some k) =
        ⟨regSet reg k { ud with status := .completed, completedAt := some env.now },
         [.signDownload ud.s3Key 3600], .ok⟩ ∧
      regGet (confirmHandler env reg (some k)).registry k =
        some { ud with status := .completed, completedAt := some env.now }) ∧
    ((confirmHandler env reg none).registry = reg ∧
      (confirmHandler env reg none).response.statusOf = 400) ∧
    ((confirmHandler env reg (some "")).registry = reg ∧
      (confirmHandler env reg (some "")).response.statusOf = 400) ∧
    (∀ k : String, k ≠ "" → regGet reg k = none →
      (confirmHandler env reg (some k)).registry = reg ∧
      (confirmHandler env reg (some k)).response.statusOf = 404) := by
  refine ⟨?_, ?_, ?_, ?_⟩
  · intro k ud hk hreg
    constructor
    · simp [confirmHandler, falsyStr, hk, hreg]
    · simp [confirmHandler, falsyStr, hk, hreg, regGet_set_self]
  · constructor <;> simp [confirmHandler, falsyStr, Response.statusOf]
  · constructor <;> simp [confirmHandler, falsyStr, Response.statusOf]
  · intro k hk hreg
    constructor <;> simp [confirmHandler, falsyStr, hk, hreg, Response.statusOf]

/-- Witness for C9: confirming the aborted multipart fixture succeeds and
re-completes it. -/
theorem confirm_unconditional_success_witness :
    confirmHandler sampleEnv [("mp1", sampleAbortedMP)] (some "mp1") =
      ⟨regSet [("mp1", sampleAbortedMP)] "mp1"
        { sampleAbortedMP with status := .completed, completedAt := some sampleEnv.now },
       [.signDownload sampleAbortedMP.s3Key 3600], .ok⟩ :=
  ((confirm_unconditional_success sampleEnv [("mp1", sampleAbortedMP)]).1 "mp1"
    sampleAbortedMP (by decide) (by decide)).1

/-! ### Claim C10 — delete works in every state; `deleteObject` iff
completed (confirmed) -/

/-- Claim C10: `delete` accepts a session in any state; it removes the
record, succeeds, calls `deleteObject` with the session's key exactly when
the status is `completed` (so a `MultipartInitiated` or `Aborted` session
is removed with no provider call), and never calls `abortMultipart`. -/
theorem delete_any_state (reg : Registry) (k : String) (ud : UploadData)
    (hreg : regGet reg k = some ud) :
    deleteHandler reg k =
      ⟨regDel reg k,
       if ud.status = .completed then [ProviderCall.deleteObject ud.s3Key] else [],
       .ok⟩ ∧
    regGet (deleteHandler reg k).registry k = none ∧
    ((ProviderCall.deleteObject ud.s3Key ∈ (deleteHandler reg k).calls) ↔
      ud.status = .completed) ∧
    (∀ key uid, ProviderCall.abortMultipart key uid ∉ (deleteHandler reg k).calls) := by
  refine ⟨?_, ?_, ?_, ?_⟩
  · simp [deleteHandler, hreg]
  · simp [deleteHandler, hreg, regGet_del_self]
  · by_cases hc : ud.status = .completed <;> simp [deleteHandler, hreg, hc]
  · intro key uid
    by_cases hc : ud.status = .completed <;> simp [deleteHandler, hreg, hc]

/-- Witness for C10: deleting the aborted multipart fixture removes it with
no provider call. -/
theorem delete_any_state_witness :
    deleteHandler [("mp1", sampleAbortedMP)] "mp1" =
      ⟨regDel [("mp1", sampleAbortedMP)] "mp1", [], .ok⟩ ∧
    regGet (deleteHandler [("mp1", sampleAbortedMP)] "mp1").registry "mp1" = none := by
  have h := delete_any_state [("mp1", sampleAbortedMP)] "mp1" sampleAbortedMP (by decide)
  exact ⟨h.1, h.2.1⟩

end Uploader
